import Mathlib

/-
Verification of the AI-assistant repository (PyQt desktop app + Flask web
server: S3 upload, PDF text extraction, Ollama inference, clipboard
polling, answer formatting).

Shallow embedding conventions:
* Python strings are Lean `String` (a wrapped `List Char`); the char-level
  helpers below mirror the exact Python primitives used by the code
  (`str.strip`, `str.split`, `str.lower`, `str.replace`, `in`,
  `re.split` on the pattern (?<=[.!?]) +, `pathlib.Path(...).stem`).  the Python
  whitespace set is modelled by its ASCII members (the sources only ever
  meet ASCII whitespace); `str.lower` is modelled on ASCII letters.
* Network / S3 / PDF effects are oracles passed in as explicit inputs
  (does list_objects_v2 succeed, which keys exist, does upload_file
  succeed, what does per-page extract_text return, ...); a raised
  exception in the source is the corresponding `none` / `false` branch.
* Thread runs become pure functions from those oracles to a result record
  capturing the emitted Qt signals and progress flags.
-/

/-- ASCII members of the Python str.strip / str.split whitespace set. -/
def pyIsSpace (c : Char) : Bool :=
  c = ' ' || c = '\t' || c = '\n' || c = '\r' || c = Char.ofNat 11 || c = Char.ofNat 12

/-- Python str.strip on the character list: drop whitespace from both ends. -/
def stripCh (cs : List Char) : List Char :=
  ((cs.dropWhile pyIsSpace).reverse.dropWhile pyIsSpace).reverse

/-- Python str.strip. -/
def pyStrip (s : String) : String := ⟨stripCh s.data⟩

/-- Python substring test (needle in hay). -/
def listIsSub : List Char → List Char → Bool
  | needle, [] => needle.isEmpty
  | needle, c :: rest => needle.isPrefixOf (c :: rest) || listIsSub needle rest

/-- Python str.lower, modelled on ASCII letters (all the code ever compares). -/
def pyLower (s : String) : String := ⟨s.data.map Char.toLower⟩

/-- Python str.split(sep) for a non-empty separator: scan left to right,
cut at each non-overlapping occurrence.  Fuelled ( fuel ≥ hay length is
enough because every step consumes at least one character). -/
def splitSepGo (sep : List Char) : Nat → List Char → List Char → List (List Char)
  | _, [], acc => [acc.reverse]
  | 0, hay, acc => [acc.reverse ++ hay]
  | fuel + 1, c :: rest, acc =>
    if sep.isPrefixOf (c :: rest) then
      acc.reverse :: splitSepGo sep fuel ((c :: rest).drop sep.length) []
    else
      splitSepGo sep fuel rest (c :: acc)

/-- Python str.split(sep); the sources only call it with "\n\n" and "\n". -/
def splitSep (sep hay : List Char) : List (List Char) :=
  if sep.isEmpty then [hay] else splitSepGo sep hay.length hay []

/-- The regex split re.split with pattern (?<=[.!?]) + on text: cut at every maximal
run of spaces whose preceding character is '.', '!' or '?'.  `prev` is the
character just before the scan position (none at the start of the text);
after a separator run the previous character is a space, so two separators
can never be adjacent.  Fuelled like splitSepGo. -/
def sentencesGo : Nat → List Char → Option Char → List Char → List (List Char)
  | _, [], _, acc => [acc.reverse]
  | 0, hay, _, acc => [acc.reverse ++ hay]
  | fuel + 1, c :: rest, prev, acc =>
    if c = ' ' && (prev = some '.' || prev = some '!' || prev = some '?') then
      acc.reverse :: sentencesGo fuel (rest.dropWhile (fun d => d = ' ')) (some ' ') []
    else
      sentencesGo fuel rest (some c) (c :: acc)

/-- re.split with pattern (?<=[.!?]) + on a character list. -/
def splitSentences (cs : List Char) : List (List Char) :=
  sentencesGo cs.length cs none []

/-- Python str.split() with no argument: split on whitespace runs and drop
empty pieces.  `acc` holds the (reversed) word being read. -/
def splitWsAcc : List Char → List Char → List (List Char)
  | [], acc => if acc.isEmpty then [] else [acc.reverse]
  | c :: rest, acc =>
    if pyIsSpace c then
      if acc.isEmpty then splitWsAcc rest [] else acc.reverse :: splitWsAcc rest []
    else
      splitWsAcc rest (c :: acc)

/-- Python str.split() with no argument. -/
def splitWs (cs : List Char) : List (List Char) := splitWsAcc cs []

/-- " ".join(words) on character lists. -/
def joinWordsCh : List (List Char) → List Char
  | [] => []
  | [w] => w
  | w :: v :: ws => w ++ ' ' :: joinWordsCh (v :: ws)

/-- Python str.split(" "): split at every single space, keeping empties. -/
def splitOnSpace : List Char → List (List Char)
  | [] => [[]]
  | c :: rest =>
    if c = ' ' then [] :: splitOnSpace rest
    else
      match splitOnSpace rest with
      | [] => [[c]]
      | w :: ws => (c :: w) :: ws

/-- The word chunks yielded by the /api/ask-stream generator: every word
except the last gets one trailing space (word + (" " if i < len-1 else "")). -/
def chunksAux : List (List Char) → List (List Char)
  | [] => []
  | [w] => [w]
  | w :: v :: ws => (w ++ [' ']) :: chunksAux (v :: ws)

/-- Concatenation of the /api/ask-stream body chunks for a given answer. -/
def streamBodyCh (answer : List Char) : List Char :=
  (chunksAux (splitOnSpace answer)).flatten

/-- Python str.replace for a non-empty pattern, fuelled (fuel ≥ hay length
is enough: a match consumes at least one character). -/
def replaceGo (pat rep : List Char) : Nat → List Char → List Char
  | _, [] => []
  | 0, hay => hay
  | fuel + 1, c :: rest =>
    if pat.isPrefixOf (c :: rest) then
      rep ++ replaceGo pat rep fuel ((c :: rest).drop pat.length)
    else
      c :: replaceGo pat rep fuel rest

/-- Python str.replace(pat, rep); an empty pattern inserts rep around every
character (never used by the sources with an empty pattern). -/
def pyReplace (s pat rep : String) : String :=
  if pat.data.isEmpty then ⟨rep.data ++ (s.data.map (fun c => c :: rep.data)).flatten⟩
  else ⟨replaceGo pat.data rep.data s.data.length s.data⟩

/-- pathlib.Path(name).stem for a bare file name: the name without its last
suffix; a suffix needs a dot that is neither the first nor the last
character. -/
def pyStem (name : String) : String :=
  let cs := name.data
  match cs.reverse.findIdx? (fun c => c = '.') with
  | none => name
  | some rIdx =>
    let i := cs.length - 1 - rIdx
    if 0 < i ∧ i < cs.length - 1 then ⟨cs.take i⟩ else name

/-- Python truthiness of an optional environment string (os.getenv result):
None and the empty string are falsy. -/
def pyTruthyOpt : Option String → Bool
  | none => false
  | some s => decide (s ≠ "")

/-- UploadThread.run extraction loop (FINALBOT/main.py 155-161 and app.py
390-393): text = ""; for each page, text += (page.extract_text() or "") +
"\n\n".  A page is `none` when extract_text returned None. -/
def extractText (pages : List (Option String)) : String :=
  pages.foldl (fun acc p => acc ++ (p.getD "" ++ "\n\n")) ""

/-- Spec-side description of the extraction result (the wording of claim C1): the
ordered concatenation of the per-page texts, each per-page text followed by
a blank-line separator. -/
def specExtract (texts : List String) : String :=
  String.join (texts.map (fun t => t ++ "\n\n"))

/-- Oracles for one FINALBOT UploadThread.run (FINALBOT/main.py 132-182):
the object keys of the primary bucket, whether list_objects_v2 / upload_file /
put_object succeed, the configured AWS_EXTRACT_BUCKET (None when unset),
and the PDF pages (none when PdfReader / the page loop raises). -/
structure FinalEnv where
  bucketKeys : List String
  listOk : Bool
  uploadOk : Bool
  putOk : Bool
  extractBucket : Option String
  pdfPages : Option (List (Option String))

/-- Observable outcome of one FINALBOT UploadThread.run: which progress
branches fired and what the extracted_text_signal carried (none = the
signal was never emitted). -/
structure FinalResult where
  skipped : Bool
  uploaded : Bool
  extractionAttempted : Bool
  extractedText : Option String
  extractionWarn : Bool
  storeAttempted : Bool
  notified : Option (String × String)
  aborted : Bool
  errorReported : Bool

/-- The text the extraction block leaves in `text`: the page concatenation,
or "" when the extraction attempt raised (FINALBOT/main.py 155-164). -/
def finalText (env : FinalEnv) : String :=
  match env.pdfPages with
  | some ps => extractText ps
  | none => ""

/-- The duplicate check (FINALBOT/main.py 136-146): list keys under prefix
filename (an exception leaves the listing empty and already = False), then
scan for an exact key match obj.Key == filename. -/
def dupCheck (fn : String) (env : FinalEnv) : Bool :=
  (if env.listOk then env.bucketKeys.filter (fun k => fn.data.isPrefixOf k.data) else []).any
    (fun k => decide (k = fn))

/-- FINALBOT/main.py 154-178: everything UploadThread.run does after the
upload decision — extraction, then the secondary-storage step, then the
extracted_text_signal emit. -/
def finalAfterUpload (fn : String) (env : FinalEnv) (skipped uploaded : Bool) : FinalResult :=
  let text := finalText env
  let warn := env.pdfPages.isNone
  if text ≠ "" ∧ pyTruthyOpt env.extractBucket = true then
    if env.putOk then
      ⟨skipped, uploaded, true, some text, warn, true, some (text, pyStem fn ++ ".txt"), false, false⟩
    else
      ⟨skipped, uploaded, true, some text, warn, true, some (text, ""), false, false⟩
  else
    ⟨skipped, uploaded, true, some text, warn, false, some (text, ""), false, false⟩

/-- FINALBOT/main.py UploadThread.run as a function of its oracles.  When
upload_file raises, control jumps to the outer except (line 180): one
error progress message, no extraction, no signal. -/
def finalRun (fn : String) (env : FinalEnv) : FinalResult :=
  if dupCheck fn env then finalAfterUpload fn env true false
  else if env.uploadOk then finalAfterUpload fn env false true
  else ⟨false, false, false, none, false, false, none, true, true⟩

/-- Oracles for one app.py UploadThread.run (app.py 385-407).  The bucket
names come from os.getenv with non-empty defaults, so they are plain
strings ("" only if the variable is set but empty). -/
structure AppEnv where
  bucketName : String
  extractBucket : String
  uploadOk : Bool
  putOk : Bool
  pdfPages : Option (List (Option String))

/-- Observable outcome of one app.py UploadThread.run.  Its
extracted_text signal carries only the text — there is no key argument. -/
structure AppResult where
  extractionPerformed : Bool
  uploaded : Bool
  storeAttempted : Bool
  notified : Option String
  errorReported : Bool

/-- app.py UploadThread.run: extraction first, then (when the primary
bucket name is truthy) upload and conditional put_object, then the
extracted_text emit; any raise lands in the single catch-all except, which
reports an error and emits nothing. -/
def appRun (env : AppEnv) : AppResult :=
  match env.pdfPages with
  | none => ⟨false, false, false, none, true⟩
  | some ps =>
    let text := extractText ps
    if env.bucketName ≠ "" then
      if env.uploadOk then
        if text ≠ "" ∧ env.extractBucket ≠ "" then
          if env.putOk then ⟨true, true, true, some text, false⟩
          else ⟨true, true, true, none, true⟩
        else ⟨true, true, false, some text, false⟩
      else ⟨true, false, false, none, true⟩
    else ⟨true, false, false, some text, false⟩

/-- The exception classes lambda_handler can re-raise. -/
inductive LambdaErr where
  | getFailed : LambdaErr
  | extractFailed : LambdaErr
  | putFailed : LambdaErr
deriving DecidableEq

/-- extractdata.py lambda_handler: download the object, concatenate
page.extract_text() or "" over the pages (no separator here), put the
text under key.replace(".pdf", ".txt"); any exception is printed and then
re-raised to the caller (modelled as Except.error). -/
def lambda_handler (getOk : Bool) (pdfPages : Option (List (Option String)))
    (putOk : Bool) (objectKey : String) : Except LambdaErr (Nat × String) :=
  if getOk then
    match pdfPages with
    | none => Except.error LambdaErr.extractFailed
    | some ps =>
      let _text := ps.foldl (fun acc p => acc ++ p.getD "") ""
      let outputKey := pyReplace objectKey ".pdf" ".txt"
      if putOk then
        Except.ok (200, "Extracted text from " ++ objectKey ++ " and saved to extractpdf202/" ++ outputKey)
      else Except.error LambdaErr.putFailed
  else Except.error LambdaErr.getFailed

def noResponseMsg : String := "⚠️ No response from model."

def exampleNote : String := "\n\n📘 Example:\nRefer to the example given above."

def srcFooter : String := "\n\n🔎 Source: Answer generated using the uploaded text and Ollama model."

/-- format_ollama_answer (FINALBOT/main.py 74-115), clause by clause:
empty reply short-circuits; split the stripped text on "\n\n" when it
contains one, else on "\n"; keep the non-empty stripped pieces; with fewer
than three, fall back to re.split with pattern (?<=[.!?]) +; number the pieces and
join with blank lines; append the Example note when the lowercased text
contains "example" or "e.g."; append the Source footer. -/
def format_ollama_answer (raw : String) : String :=
  if raw = "" then noResponseMsg
  else
    let text := pyStrip raw
    let parts :=
      ((if listIsSub ['\n', '\n'] text.data then splitSep ['\n', '\n'] text.data
        else splitSep ['\n'] text.data).map
        (fun p => pyStrip ⟨p⟩)).filter (fun p => decide (p ≠ ""))
    let lines :=
      if 3 ≤ parts.length then parts
      else ((splitSentences text.data).map (fun p => pyStrip ⟨p⟩)).filter
        (fun p => decide (p ≠ ""))
    let numbered := lines.enum.map (fun p => toString (p.1 + 1) ++ ". " ++ p.2)
    let out := String.intercalate "\n\n" numbered
    let out2 :=
      if listIsSub "example".data (pyLower text).data
          || listIsSub "e.g.".data (pyLower text).data
      then out ++ exampleNote else out
    out2 ++ srcFooter

/-- Spec-side: the delimiter-split segments (blank-line boundaries when the
stripped reply contains one, single newlines otherwise), stripped, empties
dropped. -/
def fmtParts (text : String) : List String :=
  ((if listIsSub ['\n', '\n'] text.data then splitSep ['\n', '\n'] text.data
    else splitSep ['\n'] text.data).map
    (fun p => pyStrip ⟨p⟩)).filter (fun p => decide (p ≠ ""))

/-- Spec-side: the sentence-split segments, stripped, empties dropped. -/
def fmtSentences (text : String) : List String :=
  ((splitSentences text.data).map (fun p => pyStrip ⟨p⟩)).filter (fun p => decide (p ≠ ""))

/-- Spec-side: which segment list gets numbered. -/
def fmtLines (text : String) : List String :=
  if 3 ≤ (fmtParts text).length then fmtParts text else fmtSentences text

/-- Spec-side: number the segments from n upward, order preserved. -/
def numberFrom (n : Nat) : List String → List String
  | [] => []
  | l :: ls => (toString n ++ ". " ++ l) :: numberFrom (n + 1) ls

/-- Spec-side: numbering of the segments from 1, order preserved. -/
def numberLines (lines : List String) : List String := numberFrom 1 lines

/-- Spec-side: when the Example note is appended. -/
def exampleCond (text : String) : Bool :=
  listIsSub "example".data (pyLower text).data || listIsSub "e.g.".data (pyLower text).data

/-- What a clipboard tick can trigger. -/
inductive ClipAction where
  | translate : String → ClipAction
  | display : String → ClipAction
deriving DecidableEq

/-- TranslatorPopup.check_clipboard (FINALBOT/main.py 377-394): read the
clipboard (none = pyperclip raised), strip; empty or unchanged reads are
no-ops; otherwise remember the stripped value and trigger translation
(ollama mode off) or display (ollama mode on).  app.py 552-561 is the
same automaton with translation as the only action. -/
def clipStep (lastClip : String) (readVal : Option String) (ollamaMode : Bool) :
    String × Option ClipAction :=
  match readVal with
  | none => (lastClip, none)
  | some raw =>
    let text := pyStrip raw
    if text = "" then (lastClip, none)
    else if text = lastClip then (lastClip, none)
    else (text, some (if ollamaMode then ClipAction.display text else ClipAction.translate text))

/-- JSON values as returned by resp.json(). -/
inductive JVal where
  | jnull : JVal
  | jbool : Bool → JVal
  | jnum : Int → JVal
  | jstr : String → JVal
  | jarr : List JVal → JVal
  | jobj : List (String × JVal) → JVal

def hexDigit (n : Nat) : Char :=
  if n < 10 then Char.ofNat (48 + n) else Char.ofNat (87 + n)

def hex4 (n : Nat) : List Char :=
  [hexDigit (n / 4096 % 16), hexDigit (n / 256 % 16), hexDigit (n / 16 % 16), hexDigit (n % 16)]

/-- json.dumps escaping of one character (default ensure_ascii=True;
non-BMP codepoints, which dumps renders as surrogate pairs, are modelled
as a single \uXXXX group). -/
def jsonEscapeChar (c : Char) : List Char :=
  if c = '"' then ['\\', '"']
  else if c = '\\' then ['\\', '\\']
  else if c = '\n' then ['\\', 'n']
  else if c = '\t' then ['\\', 't']
  else if c = '\r' then ['\\', 'r']
  else if c = Char.ofNat 8 then ['\\', 'b']
  else if c = Char.ofNat 12 then ['\\', 'f']
  else if c.toNat < 32 || 126 < c.toNat then '\\' :: 'u' :: hex4 c.toNat
  else [c]

def jsonEscape (s : String) : String := ⟨(s.data.map jsonEscapeChar).flatten⟩

/-- json.dumps with its default separators (", " and ": "). -/
def dumps : JVal → String
  | JVal.jnull => "null"
  | JVal.jbool true => "true"
  | JVal.jbool false => "false"
  | JVal.jnum n => toString n
  | JVal.jstr s => "\"" ++ jsonEscape s ++ "\""
  | JVal.jarr xs => "[" ++ String.intercalate ", " (xs.attach.map (fun x => dumps x.1)) ++ "]"
  | JVal.jobj fs => "\x7b" ++ String.intercalate ", "
      (fs.attach.map (fun f => "\"" ++ jsonEscape f.1.1 ++ "\": " ++ dumps f.1.2)) ++ "\x7d"
decreasing_by
  · have h := List.sizeOf_lt_of_mem x.2
    simp only [JVal.jarr.sizeOf_spec]
    omega
  · obtain ⟨⟨k, v⟩, hm⟩ := f
    have h := List.sizeOf_lt_of_mem hm
    simp only [Prod.mk.sizeOf_spec] at h
    simp only [JVal.jobj.sizeOf_spec]
    omega

/-- repr() escaping of one character inside a Python string repr
(simplified to the always-single-quote form; quote-choice subtleties of
repr never reach any claim). -/
def pyStrEscChar (c : Char) : List Char :=
  if c = '\\' then ['\\', '\\']
  else if c = Char.ofNat 39 then ['\\', Char.ofNat 39]
  else if c = '\n' then ['\\', 'n']
  else if c = '\r' then ['\\', 'r']
  else if c = '\t' then ['\\', 't']
  else [c]

/-- Python repr() of a JSON-shaped value (what str() shows inside lists). -/
def pyRepr : JVal → String
  | JVal.jnull => "None"
  | JVal.jbool true => "True"
  | JVal.jbool false => "False"
  | JVal.jnum n => toString n
  | JVal.jstr s =>
    ⟨Char.ofNat 39 :: (s.data.map pyStrEscChar).flatten ++ [Char.ofNat 39]⟩
  | JVal.jarr xs => "[" ++ String.intercalate ", " (xs.attach.map (fun x => pyRepr x.1)) ++ "]"
  | JVal.jobj fs => "\x7b" ++ String.intercalate ", "
      (fs.attach.map (fun f =>
        String.mk (Char.ofNat 39 :: (f.1.1.data.map pyStrEscChar).flatten ++ [Char.ofNat 39])
          ++ ": " ++ pyRepr f.1.2)) ++ "\x7d"
decreasing_by
  · have h := List.sizeOf_lt_of_mem x.2
    simp only [JVal.jarr.sizeOf_spec]
    omega
  · obtain ⟨⟨k, v⟩, hm⟩ := f
    have h := List.sizeOf_lt_of_mem hm
    simp only [Prod.mk.sizeOf_spec] at h
    simp only [JVal.jobj.sizeOf_spec]
    omega

/-- Python str() of the parsed JSON value (top-level strings print bare). -/
def pyStr : JVal → String
  | JVal.jstr s => s
  | v => pyRepr v

/-- Python len() where the code applies it (TypeError = none). -/
def pyLen : JVal → Option Nat
  | JVal.jarr xs => some xs.length
  | JVal.jstr s => some s.data.length
  | JVal.jobj fs => some fs.length
  | _ => none

/-- The reply-extraction logic of TranslatorPopup.ask_ollama
(FINALBOT/main.py 446-464) and DocumentQAPopup.ask_question (602-615):
`parsed` is resp.json() (none when JSON decoding raises), rawBody is
resp.text.  Any exception inside the probing try block (len() on a
non-sized value, .get on a non-dict, indexing a dict with 0) falls back to
resp.text.  A dict with a dict-valued "message" uses its "content" (or "")
without ever consulting "choices"; a dict with neither branch applicable
re-serialises via json.dumps; a non-dict JSON value stringifies via str(). -/
def parseReply (parsed : Option JVal) (rawBody : String) : JVal :=
  match parsed with
  | none => JVal.jstr rawBody
  | some (JVal.jobj fields) =>
    match List.lookup "message" fields with
    | some (JVal.jobj mf) => (List.lookup "content" mf).getD (JVal.jstr "")
    | _ =>
      match List.lookup "choices" fields with
      | none => JVal.jstr (dumps (JVal.jobj fields))
      | some cv =>
        match pyLen cv with
        | none => JVal.jstr rawBody
        | some 0 => JVal.jstr (dumps (JVal.jobj fields))
        | some (_ + 1) =>
          match cv with
          | JVal.jarr (JVal.jobj m :: _) =>
            match (List.lookup "message" m).getD (JVal.jobj []) with
            | JVal.jobj mm => (List.lookup "content" mm).getD (JVal.jstr "")
            | _ => JVal.jstr rawBody
          | _ => JVal.jstr rawBody
  | some v => JVal.jstr (pyStr v)

/-- Modelled from the wording of claim C7: attempt (a) the nested message.content
field. -/
def specMsgContent : Option JVal → Option String
  | some (JVal.jobj fields) =>
    match List.lookup "message" fields with
    | some (JVal.jobj mf) =>
      match List.lookup "content" mf with
      | some (JVal.jstr s) => some s
      | _ => none
    | _ => none
  | _ => none

/-- Modelled from the wording of claim C7: attempt (b) choices[0].message.content. -/
def specChoicesContent : Option JVal → Option String
  | some (JVal.jobj fields) =>
    match List.lookup "choices" fields with
    | some (JVal.jarr (JVal.jobj m :: _)) =>
      match List.lookup "message" m with
      | some (JVal.jobj mm) =>
        match List.lookup "content" mm with
        | some (JVal.jstr s) => some s
        | _ => none
      | _ => none
    | _ => none
  | _ => none

/-- Modelled from the wording of claim C7: the first attempt that yields a value
is used, falling back to the raw response body. -/
def specReply (parsed : Option JVal) (rawBody : String) : String :=
  match specMsgContent parsed with
  | some s => s
  | none =>
    match specChoicesContent parsed with
    | some s => s
    | none => rawBody

/-- The single piece of shared state of the Flask web server (app.py 69). -/
structure WebState where
  latestAnswer : String

/-- The normalisation get_ollama_response applies to the model reply
(app.py 129-131): strip, replace the two-character sequence backslash-n
and then real newlines by spaces, then collapse every whitespace run via
" ".join(answer.split()). -/
def pyNormalize (raw : String) : String :=
  ⟨joinWordsCh (splitWs (pyReplace (pyReplace (pyStrip raw) "\\n" " ") "\n" " ").data)⟩

/-- get_ollama_response (app.py 103-137): on HTTP 200, infResp = some raw
is the value of the response field; it is normalised, stored in latest_answer
and returned.  On any failure (none) the global is untouched and None is
returned. -/
def get_ollama_response (st : WebState) (infResp : Option String) :
    WebState × Option String :=
  match infResp with
  | none => (st, none)
  | some raw => (⟨pyNormalize raw⟩, some (pyNormalize raw))

/-- POST /api/ask-stream (app.py 139-160): 400 on a blank question, 500 on
a failed or empty answer, else the answer is streamed word by word (the
stream body is streamBodyCh of the answer). -/
def stream_text (st : WebState) (questionRaw : String) (infResp : Option String) :
    WebState × Option String :=
  if pyStrip questionRaw = "" then (st, none)
  else
    match get_ollama_response st infResp with
    | (st2, none) => (st2, none)
    | (st2, some ans) => if ans = "" then (st2, none) else (st2, some ans)

/-- What one audio request did: the question it sent to inference (none if
inference was never invoked) and the text handed to synthesize_speech
(none if the request failed before synthesis). -/
structure AudioOutcome where
  inferenceQuestion : Option String
  synthesizedFrom : Option String

/-- POST /api/ask-audio-stream (app.py 162-195): 500 on a blank question
or missing Polly client; otherwise the answer is the stored latest_answer
when non-empty — inference is NOT invoked — and a fresh inference call
with its own (stripped) question only when the store is empty;
with a voice available, synthesize_speech runs on that answer. -/
def stream_audio (st : WebState) (questionRaw : String) (pollyOk voiceOk : Bool)
    (infResp : Option String) : WebState × AudioOutcome :=
  let question := pyStrip questionRaw
  if question = "" ∨ pollyOk = false then (st, ⟨none, none⟩)
  else if st.latestAnswer ≠ "" then
    if voiceOk then (st, ⟨none, some st.latestAnswer⟩) else (st, ⟨none, none⟩)
  else
    match get_ollama_response st infResp with
    | (st2, none) => (st2, ⟨some question, none⟩)
    | (st2, some ans) =>
      if ans = "" then (st2, ⟨some question, none⟩)
      else if voiceOk then (st2, ⟨some question, some ans⟩)
      else (st2, ⟨some question, none⟩)

/-- Every whitespace character is a plain space. -/
def onlySpaceWs (cs : List Char) : Bool := cs.all (fun c => !pyIsSpace c || c = ' ')

/-- The first character (if any) is not a space. -/
def firstNotSpace : List Char → Bool
  | [] => true
  | c :: _ => decide (c ≠ ' ')

/-- The last character (if any) is not a space. -/
def lastNotSpaceB : List Char → Bool
  | [] => true
  | [c] => decide (c ≠ ' ')
  | _ :: c :: rest => lastNotSpaceB (c :: rest)

/-- No two adjacent spaces. -/
def noDoubleSpace : List Char → Bool
  | [] => true
  | [_] => true
  | a :: b :: rest => !(decide (a = ' ') && decide (b = ' ')) && noDoubleSpace (b :: rest)

theorem strDataAppend (a b : String) : (a ++ b).data = a.data ++ b.data := rfl

theorem strAppendNil (a : String) : a ++ "" = a := by
  cases a with
  | mk l => show String.mk (l ++ []) = String.mk l; rw [List.append_nil]

theorem strAppendAssoc (a b c : String) : a ++ b ++ c = a ++ (b ++ c) := by
  cases a with
  | mk la =>
    cases b with
    | mk lb =>
      cases c with
      | mk lc =>
        show String.mk (la ++ lb ++ lc) = String.mk (la ++ (lb ++ lc))
        rw [List.append_assoc]

theorem strNilAppend (a : String) : "" ++ a = a := by
  cases a with
  | mk l => show String.mk ([] ++ l) = String.mk l; rw [List.nil_append]

theorem strFoldlAppendId :
    ∀ (l : List String) (init : String),
      l.foldl (fun r s => r ++ s) init = init ++ String.join l := by
  intro l
  induction l with
  | nil => intro init; simp [String.join, strAppendNil]
  | cons a l ih =>
    intro init
    show l.foldl (fun r s => r ++ s) (init ++ a) = _
    rw [ih (init ++ a)]
    have h2 : String.join (a :: l) = a ++ String.join l := by
      show l.foldl (fun r s => r ++ s) ("" ++ a) = _
      rw [ih ("" ++ a), strNilAppend]
    rw [h2, strAppendAssoc]

theorem strFoldlAppend (f : α → String) (l : List α) (init : String) :
    l.foldl (fun acc t => acc ++ f t) init = init ++ String.join (l.map f) := by
  rw [← List.foldl_map f (fun r s => r ++ s) l init]
  exact strFoldlAppendId (l.map f) init

/-- Claim C1: for pages yielding per-page texts T_1..T_N in document order
(None modelled as the page yielding nothing), the extraction step produces
exactly the ordered concatenation of the T_i, each followed by a blank-line
separator; in particular a 2-page PDF yielding "Hello" and "" extracts to
"Hello\n\n\n\n". -/
theorem claim_C1 :
    (∀ pages : List (Option String),
        extractText pages = specExtract (pages.map (fun p => p.getD ""))) ∧
    extractText [some "Hello", some ""] = "Hello\n\n\n\n" ∧
    specExtract ["Hello", ""] = "Hello\n\n\n\n" := by
  refine ⟨?_, by decide, by decide⟩
  intro pages
  show pages.foldl (fun acc p => acc ++ (p.getD "" ++ "\n\n")) "" = _
  rw [strFoldlAppend (fun p => p.getD "" ++ "\n\n") pages ""]
  have : specExtract (pages.map (fun p => p.getD "")) =
      String.join (pages.map (fun p => p.getD "" ++ "\n\n")) := by
    show String.join ((pages.map (fun p => p.getD "")).map (fun t => t ++ "\n\n")) = _
    rw [List.map_map]
    rfl
  rw [this, strNilAppend]

theorem isPrefixOfRefl : ∀ (l : List Char), l.isPrefixOf l = true := by
  intro l
  induction l with
  | nil => rfl
  | cons c cs ih => simp [List.isPrefixOf, ih]

/-- All observable fields of the post-upload part of the FINALBOT run, as a
function of the oracles. -/
theorem afterUpload_spec (fn : String) (env : FinalEnv) (s u : Bool) :
    (finalAfterUpload fn env s u).skipped = s ∧
    (finalAfterUpload fn env s u).uploaded = u ∧
    (finalAfterUpload fn env s u).extractionAttempted = true ∧
    (finalAfterUpload fn env s u).extractedText = some (finalText env) ∧
    (finalAfterUpload fn env s u).extractionWarn = env.pdfPages.isNone ∧
    (finalAfterUpload fn env s u).aborted = false ∧
    (finalAfterUpload fn env s u).errorReported = false ∧
    (finalAfterUpload fn env s u).storeAttempted =
      (decide (finalText env ≠ "") && pyTruthyOpt env.extractBucket) ∧
    (finalAfterUpload fn env s u).notified =
      some (finalText env,
        if (decide (finalText env ≠ "") && pyTruthyOpt env.extractBucket && env.putOk) = true
        then pyStem fn ++ ".txt" else "") := by
  by_cases h1 : finalText env ≠ "" ∧ pyTruthyOpt env.extractBucket = true
  · cases hp : env.putOk
    · simp [finalAfterUpload, h1, hp, h1.1, h1.2]
    · simp [finalAfterUpload, h1, hp, h1.1, h1.2]
  · have hx : (decide (finalText env ≠ "") && pyTruthyOpt env.extractBucket) = false := by
      by_cases ha : finalText env = ""
      · simp [ha]
      · have hb : pyTruthyOpt env.extractBucket ≠ true := fun hb => h1 ⟨ha, hb⟩
        simp [Bool.eq_false_iff.mpr hb]
    simp [finalAfterUpload, h1, hx]
    intro ha
    exact Bool.eq_false_iff.mpr (fun hb => h1 ⟨ha, hb⟩)

/-- Claim C2 (amended): in the FINALBOT pipeline, for every run that
reaches the extraction step, the secondary storage step is attempted iff
the extracted text is non-empty and AWS_EXTRACT_BUCKET is configured, and
the extracted-text signal always carries the text plus the derived key
when stored and an empty key otherwise (including a failed put_object);
in the app.py pipeline, however, the signal carries only the text (no key
argument exists), and when put_object fails the run dies in the catch-all
handler, so no notification is delivered at all. -/
theorem claim_C2 (fn : String) (env : FinalEnv) (h : (finalRun fn env).aborted = false) :
    (finalRun fn env).storeAttempted =
      (decide (finalText env ≠ "") && pyTruthyOpt env.extractBucket) ∧
    (finalRun fn env).notified =
      some (finalText env,
        if (decide (finalText env ≠ "") && pyTruthyOpt env.extractBucket && env.putOk) = true
        then pyStem fn ++ ".txt" else "") ∧
    (∀ env2 : AppEnv, ∀ ps, env2.pdfPages = some ps → extractText ps ≠ "" →
        env2.bucketName ≠ "" → env2.uploadOk = true → env2.extractBucket ≠ "" →
        env2.putOk = false →
        (appRun env2).storeAttempted = true ∧ (appRun env2).notified = none) := by
  refine ⟨?_, ?_, ?_⟩
  · by_cases hd : dupCheck fn env
    · simp only [finalRun, if_pos hd]
      exact (afterUpload_spec fn env true false).2.2.2.2.2.2.2.1
    · cases hu : env.uploadOk
      · simp [finalRun, if_neg hd, hu] at h
      · simp only [finalRun, if_neg hd, hu]
        exact (afterUpload_spec fn env false true).2.2.2.2.2.2.2.1
  · by_cases hd : dupCheck fn env
    · simp only [finalRun, if_pos hd]
      exact (afterUpload_spec fn env true false).2.2.2.2.2.2.2.2
    · cases hu : env.uploadOk
      · simp [finalRun, if_neg hd, hu] at h
      · simp only [finalRun, if_neg hd, hu]
        exact (afterUpload_spec fn env false true).2.2.2.2.2.2.2.2
  · intro env2 ps hps htext hb hu he hp
    simp [appRun, hps, htext, hb, hu, he, hp]

/-- Claim C2 counterexample: in the app.py UploadThread.run, with a 1-page
PDF yielding "Hello", both buckets configured, upload succeeding and
put_object raising, the secondary store is attempted but the run dies in
the catch-all handler: the extracted-text notification is never emitted,
and it could not have carried a storage key anyway (the app.py signal has
no key argument) — contradicting the claim that the notification always
carries the text with an empty key when the store attempt fails. -/
theorem claim_C2_cex :
    (appRun ⟨"docs", "extracts", true, false, some [some "Hello"]⟩).storeAttempted = true ∧
    (appRun ⟨"docs", "extracts", true, false, some [some "Hello"]⟩).notified = none ∧
    extractText [some "Hello"] = "Hello\n\n" := by
  refine ⟨by decide, by decide, by decide⟩

/-- Claim C2 witness: the amended FINALBOT invariant evaluated on a
concrete run (2-page "Hello"/empty PDF, extract bucket configured,
put_object succeeding). -/
theorem claim_C2_witness :
    (finalRun "notes.pdf"
      ⟨[], true, true, true, some "extracts", some [some "Hello", some ""]⟩).aborted = false ∧
    (finalRun "notes.pdf"
      ⟨[], true, true, true, some "extracts", some [some "Hello", some ""]⟩).notified =
      some ("Hello\n\n\n\n", "notes.txt") := by
  refine ⟨by decide, ?_⟩
  have h := (claim_C2 "notes.pdf"
    ⟨[], true, true, true, some "extracts", some [some "Hello", some ""]⟩ (by decide)).2.1
  rw [h]
  decide

/-- Claim C3: a file whose basename exactly equals an existing object key
in the bucket is skipped (no re-upload) and extraction still runs; the
duplicate test is pure key equality over the listed keys — when no key
equals the basename, nothing is skipped.  (The model carries no object
contents at all, so no content comparison can be involved.) -/
theorem claim_C3 (fn : String) (env : FinalEnv) (h1 : env.listOk = true)
    (h2 : fn ∈ env.bucketKeys) :
    (finalRun fn env).skipped = true ∧ (finalRun fn env).uploaded = false ∧
    (finalRun fn env).extractionAttempted = true ∧ (finalRun fn env).aborted = false ∧
    (∀ env2 : FinalEnv, env2.listOk = true → fn ∉ env2.bucketKeys →
        (finalRun fn env2).skipped = false) := by
  have hd : dupCheck fn env = true := by
    unfold dupCheck
    rw [h1]
    simp only [if_pos]
    apply List.any_eq_true.mpr
    exact ⟨fn, List.mem_filter.mpr ⟨h2, isPrefixOfRefl fn.data⟩, by simp⟩
  have hrun : finalRun fn env = finalAfterUpload fn env true false := by
    unfold finalRun; rw [hd]; simp
  refine ⟨?_, ?_, ?_, ?_, ?_⟩
  · rw [hrun]; exact (afterUpload_spec fn env true false).1
  · rw [hrun]; exact (afterUpload_spec fn env true false).2.1
  · rw [hrun]; exact (afterUpload_spec fn env true false).2.2.1
  · rw [hrun]; exact (afterUpload_spec fn env true false).2.2.2.2.2.1
  · intro env2 h3 h4
    have hd2 : dupCheck fn env2 = false := by
      unfold dupCheck
      rw [h3]
      simp only [if_pos]
      apply Bool.eq_false_iff.mpr
      intro hany
      rcases List.any_eq_true.mp hany with ⟨k, hkmem, hkeq⟩
      have : k = fn := by simpa using hkeq
      exact h4 (this ▸ (List.mem_filter.mp hkmem).1)
    cases hu : env2.uploadOk
    · simp [finalRun, hd2, hu]
    · simp only [finalRun, hd2, hu, Bool.false_eq_true, if_false, if_pos]
      exact (afterUpload_spec fn env2 false true).1

/-- Claim C3 witness: a basename that is already a key is skipped but
still extracted, on a concrete run. -/
theorem claim_C3_witness :
    (⟨["doc.pdf"], true, true, true, some "extracts", some [some "Hi"]⟩ : FinalEnv).listOk = true ∧
    "doc.pdf" ∈ (⟨["doc.pdf"], true, true, true, some "extracts", some [some "Hi"]⟩ : FinalEnv).bucketKeys ∧
    (finalRun "doc.pdf" ⟨["doc.pdf"], true, true, true, some "extracts", some [some "Hi"]⟩).skipped = true ∧
    (finalRun "doc.pdf" ⟨["doc.pdf"], true, true, true, some "extracts", some [some "Hi"]⟩).uploaded = false ∧
    (finalRun "doc.pdf" ⟨["doc.pdf"], true, true, true, some "extracts", some [some "Hi"]⟩).extractionAttempted = true := by
  have h := claim_C3 "doc.pdf"
    ⟨["doc.pdf"], true, true, true, some "extracts", some [some "Hi"]⟩ rfl (by decide)
  exact ⟨rfl, by decide, h.1, h.2.1, h.2.2.1⟩

/-- Claim C4 (amended): when the duplicate check does not fire and
upload_file raises, the exception is caught by the catch-all
handler, which reports a single textual error message — but the run ends
there: in FINALBOT extraction is never attempted and no extracted-text
signal is emitted; in app.py extraction has already happened (it precedes
the upload) yet the extracted-text notification is likewise never
delivered. -/
theorem claim_C4 (fn : String) (env : FinalEnv) (h1 : env.uploadOk = false)
    (h2 : dupCheck fn env = false) :
    (finalRun fn env).aborted = true ∧ (finalRun fn env).errorReported = true ∧
    (finalRun fn env).extractionAttempted = false ∧ (finalRun fn env).notified = none ∧
    (∀ env2 : AppEnv, ∀ ps, env2.pdfPages = some ps → env2.bucketName ≠ "" →
        env2.uploadOk = false →
        (appRun env2).extractionPerformed = true ∧ (appRun env2).errorReported = true ∧
        (appRun env2).notified = none) := by
  have hrun : finalRun fn env =
      ⟨false, false, false, none, false, false, none, true, true⟩ := by
    simp [finalRun, h1, h2]
  refine ⟨by rw [hrun], by rw [hrun], by rw [hrun], by rw [hrun], ?_⟩
  intro env2 ps hps hb hu
  simp [appRun, hps, hb, hu]

/-- Claim C4 counterexample: with an empty bucket listing and upload_file
raising, the FINALBOT UploadThread.run aborts in its catch-all handler —
extraction is NOT attempted and no extracted-text signal is emitted,
contradicting the claim that the pipeline still proceeds to extract after
an upload failure. -/
theorem claim_C4_cex :
    (finalRun "doc.pdf"
      ⟨[], true, false, true, some "extracts", some [some "Hello"]⟩).extractionAttempted = false ∧
    (finalRun "doc.pdf"
      ⟨[], true, false, true, some "extracts", some [some "Hello"]⟩).aborted = true ∧
    (finalRun "doc.pdf"
      ⟨[], true, false, true, some "extracts", some [some "Hello"]⟩).notified = none := by
  refine ⟨by decide, by decide, by decide⟩

/-- Claim C4 witness: the amended behaviour on a concrete failing upload. -/
theorem claim_C4_witness :
    (⟨[], true, false, true, some "extracts", some [some "Hi"]⟩ : FinalEnv).uploadOk = false ∧
    dupCheck "doc.pdf" ⟨[], true, false, true, some "extracts", some [some "Hi"]⟩ = false ∧
    (finalRun "doc.pdf" ⟨[], true, false, true, some "extracts", some [some "Hi"]⟩).errorReported = true ∧
    (finalRun "doc.pdf" ⟨[], true, false, true, some "extracts", some [some "Hi"]⟩).extractionAttempted = false := by
  have h := claim_C4 "doc.pdf"
    ⟨[], true, false, true, some "extracts", some [some "Hi"]⟩ rfl (by decide)
  exact ⟨rfl, by decide, h.2.1, h.2.2.1⟩

/-- Claim C5 (amended): only the FINALBOT UploadThread wraps the extraction
attempt in its own handler — there any exception degrades the text to ""
with a warning message, nothing propagates, and the signal still fires
with an empty key.  In app.py the exception reaches the thread's
catch-all handler instead: an error message, no extracted-text
notification, no empty-string result.  In the extractdata.py lambda_handler
the exception is printed and then re-raised to the caller. -/
theorem claim_C5 (fn : String) (env : FinalEnv) (h1 : env.pdfPages = none)
    (h2 : dupCheck fn env = true ∨ env.uploadOk = true) :
    (finalRun fn env).extractedText = some "" ∧ (finalRun fn env).extractionWarn = true ∧
    (finalRun fn env).aborted = false ∧ (finalRun fn env).notified = some ("", "") ∧
    (∀ env2 : AppEnv, env2.pdfPages = none →
        (appRun env2).errorReported = true ∧ (appRun env2).notified = none ∧
        (appRun env2).extractionPerformed = false) ∧
    (∀ key : String, ∀ putOk : Bool,
        lambda_handler true none putOk key = Except.error LambdaErr.extractFailed) := by
  have htext : finalText env = "" := by unfold finalText; rw [h1]
  have hwarn : env.pdfPages.isNone = true := by rw [h1]; rfl
  have hrun : ∃ s u, finalRun fn env = finalAfterUpload fn env s u := by
    rcases h2 with hdup | hup
    · exact ⟨true, false, by simp [finalRun, hdup]⟩
    · cases hdup : dupCheck fn env
      · exact ⟨false, true, by simp [finalRun, hdup, hup]⟩
      · exact ⟨true, false, by simp [finalRun, hdup]⟩
  rcases hrun with ⟨s, u, hrun⟩
  have hsp := afterUpload_spec fn env s u
  refine ⟨?_, ?_, ?_, ?_, ?_, ?_⟩
  · rw [hrun, hsp.2.2.2.1, htext]
  · rw [hrun, hsp.2.2.2.2.1, hwarn]
  · rw [hrun]; exact hsp.2.2.2.2.2.1
  · rw [hrun, hsp.2.2.2.2.2.2.2.2, htext]; simp
  · intro env2 hps; simp [appRun, hps]
  · intro key putOk; rfl

/-- Claim C5 counterexample: the extractdata.py lambda_handler, when the PDF
read / extraction raises, does not degrade to an empty string — it
re-raises the exception to its caller (claim: the exception is caught
inside the extraction step and never propagated). -/
theorem claim_C5_cex :
    lambda_handler true none true "class5.pdf" = Except.error LambdaErr.extractFailed := rfl

/-- Claim C5 witness: a FINALBOT run whose extraction raises still ends
normally with empty text, a warning, and an empty-key signal. -/
theorem claim_C5_witness :
    (⟨[], true, true, true, some "extracts", none⟩ : FinalEnv).pdfPages = none ∧
    (finalRun "doc.pdf" ⟨[], true, true, true, some "extracts", none⟩).extractedText = some "" ∧
    (finalRun "doc.pdf" ⟨[], true, true, true, some "extracts", none⟩).extractionWarn = true ∧
    (finalRun "doc.pdf" ⟨[], true, true, true, some "extracts", none⟩).notified = some ("", "") := by
  have h := claim_C5 "doc.pdf" ⟨[], true, true, true, some "extracts", none⟩ rfl (Or.inr rfl)
  exact ⟨rfl, h.1, h.2.1, h.2.2.2.1⟩

theorem numberFromLen : ∀ (ls : List String) (n : Nat), (numberFrom n ls).length = ls.length := by
  intro ls
  induction ls with
  | nil => intro n; rfl
  | cons l ls ih => intro n; simp [numberFrom, ih]

theorem numberFromIdx : ∀ (ls : List String) (n i : Nat), i < ls.length →
    (numberFrom n ls)[i]? = some (toString (n + i) ++ ". " ++ ((ls[i]?).getD "")) := by
  intro ls
  induction ls with
  | nil => intro n i hi; simp at hi
  | cons l ls ih =>
    intro n i hi
    cases i with
    | zero => simp [numberFrom]
    | succ j =>
      have hj : j < ls.length := by simpa using hi
      have := ih (n + 1) j hj
      simp only [numberFrom, List.getElem?_cons_succ]
      rw [this]
      have : n + 1 + j = n + (j + 1) := by omega
      rw [this]

theorem enumMapNumber : ∀ (ls : List String) (n : Nat),
    (List.enumFrom n ls).map (fun p => toString (p.1 + 1) ++ ". " ++ p.2) =
      numberFrom (n + 1) ls := by
  intro ls
  induction ls with
  | nil => intro n; rfl
  | cons l ls ih =>
    intro n
    simp only [List.enumFrom, List.map_cons, numberFrom]
    rw [ih (n + 1)]

/-- Claim C6 (amended): for every NON-empty reply, the stripped text is
split on blank-line boundaries when it contains one and on single newlines
otherwise; when that split yields at least three non-empty stripped
segments they are numbered, otherwise the punctuation-based sentence split
is numbered instead; the numbered output keeps exactly the segment count
and order; the fixed Example note is appended exactly when the lowercased
stripped reply contains the substring "example" or the substring "e.g.";
and the fixed source-attribution footer is appended.  (The empty reply
instead yields a fixed no-response message carrying no footer.) -/
theorem claim_C6 (raw : String) (h : raw ≠ "") :
    format_ollama_answer raw =
      String.intercalate "\n\n" (numberLines (fmtLines (pyStrip raw)))
        ++ (if exampleCond (pyStrip raw) = true then exampleNote else "")
        ++ srcFooter ∧
    (numberLines (fmtLines (pyStrip raw))).length = (fmtLines (pyStrip raw)).length ∧
    fmtLines (pyStrip raw) =
      (if 3 ≤ (fmtParts (pyStrip raw)).length then fmtParts (pyStrip raw)
       else fmtSentences (pyStrip raw)) ∧
    (∀ i : Nat, i < (fmtLines (pyStrip raw)).length →
        (numberLines (fmtLines (pyStrip raw)))[i]? =
          some (toString (i + 1) ++ ". " ++ (((fmtLines (pyStrip raw))[i]?).getD ""))) := by
  refine ⟨?_, numberFromLen _ 1, rfl, ?_⟩
  · unfold format_ollama_answer
    rw [if_neg h]
    dsimp only
    unfold fmtLines fmtParts fmtSentences numberLines exampleCond
    have henum : ∀ ls : List String,
        ls.enum.map (fun p => toString (p.1 + 1) ++ ". " ++ p.2) = numberFrom 1 ls := by
      intro ls
      have := enumMapNumber ls 0
      simpa [List.enum] using this
    rw [henum]
    by_cases hc : (listIsSub "example".data (pyLower (pyStrip raw)).data
        || listIsSub "e.g.".data (pyLower (pyStrip raw)).data) = true
    · rw [if_pos hc, if_pos hc, strAppendAssoc]
    · rw [if_neg hc, if_neg hc, strAppendNil]
  · intro i hi
    have := numberFromIdx (fmtLines (pyStrip raw)) 1 i hi
    unfold numberLines
    rw [this]
    have hn : 1 + i = i + 1 := by omega
    rw [hn]

/-- Claim C6 counterexample: on the empty reply (a possible model reply —
a present "message" dict without "content" yields exactly ""), the
formatter returns the fixed no-response message, which does not contain
the source-attribution footer — contradicting the claim that the footer
is always appended. -/
theorem claim_C6_cex :
    format_ollama_answer "" = noResponseMsg ∧
    listIsSub srcFooter.data (format_ollama_answer "").data = false := by
  refine ⟨rfl, by decide⟩

/-- Claim C6 witness: the amended statement on a concrete three-segment
reply. -/
theorem claim_C6_witness :
    ("A\n\nB\n\nC" : String) ≠ "" ∧
    format_ollama_answer "A\n\nB\n\nC" =
      String.intercalate "\n\n" (numberLines (fmtLines (pyStrip "A\n\nB\n\nC")))
        ++ (if exampleCond (pyStrip "A\n\nB\n\nC") = true then exampleNote else "")
        ++ srcFooter ∧
    fmtLines (pyStrip "A\n\nB\n\nC") = ["A", "B", "C"] := by
  refine ⟨by decide, (claim_C6 "A\n\nB\n\nC" (by decide)).1, by decide⟩

/-- Claim C7 (amended): the reply extraction gives strict priority to a
dict-valued "message" field — its "content" (or the empty string when
absent) is used and "choices" is never consulted; only without such a
"message" is choices[0].message.content probed; the raw response body is
the fallback when the body is not JSON at all, and also whenever a
probing step raises — len() on a non-sized "choices" value, indexing a
non-empty string or dict "choices" with 0, a non-dict choices[0], or the
inner .get on a non-dict "message" inside choices[0]; a parsed dict
carrying neither field yields its json.dumps re-serialisation, and a
parsed non-dict JSON value (null, bool, number, string, array) the
Python str() form of the value — neither being the raw body. -/
theorem claim_C7 :
    (∀ fields mf raw, List.lookup "message" fields = some (JVal.jobj mf) →
        parseReply (some (JVal.jobj fields)) raw =
          (List.lookup "content" mf).getD (JVal.jstr "")) ∧
    (∀ fields raw mm rest m2 v, List.lookup "message" fields = none →
        List.lookup "choices" fields = some (JVal.jarr (JVal.jobj mm :: rest)) →
        List.lookup "message" mm = some (JVal.jobj m2) →
        List.lookup "content" m2 = some v →
        parseReply (some (JVal.jobj fields)) raw = v) ∧
    (∀ raw, parseReply none raw = JVal.jstr raw) ∧
    (∀ fields raw, List.lookup "message" fields = none →
        List.lookup "choices" fields = none →
        parseReply (some (JVal.jobj fields)) raw = JVal.jstr (dumps (JVal.jobj fields))) ∧
    (∀ raw, parseReply (some JVal.jnull) raw = JVal.jstr (pyStr JVal.jnull)) ∧
    (∀ raw b, parseReply (some (JVal.jbool b)) raw = JVal.jstr (pyStr (JVal.jbool b))) ∧
    (∀ raw n, parseReply (some (JVal.jnum n)) raw = JVal.jstr (pyStr (JVal.jnum n))) ∧
    (∀ raw s, parseReply (some (JVal.jstr s)) raw = JVal.jstr (pyStr (JVal.jstr s))) ∧
    (∀ raw xs, parseReply (some (JVal.jarr xs)) raw = JVal.jstr (pyStr (JVal.jarr xs))) ∧
    (∀ fields raw cv, List.lookup "message" fields = none →
        List.lookup "choices" fields = some cv → pyLen cv = none →
        parseReply (some (JVal.jobj fields)) raw = JVal.jstr raw) ∧
    (∀ fields raw x rest, List.lookup "message" fields = none →
        List.lookup "choices" fields = some (JVal.jarr (x :: rest)) →
        (∀ m, x ≠ JVal.jobj m) →
        parseReply (some (JVal.jobj fields)) raw = JVal.jstr raw) ∧
    (∀ fields raw s, List.lookup "message" fields = none →
        List.lookup "choices" fields = some (JVal.jstr s) → s.data ≠ [] →
        parseReply (some (JVal.jobj fields)) raw = JVal.jstr raw) ∧
    (∀ fields raw fs2, List.lookup "message" fields = none →
        List.lookup "choices" fields = some (JVal.jobj fs2) → fs2 ≠ [] →
        parseReply (some (JVal.jobj fields)) raw = JVal.jstr raw) ∧
    (∀ fields raw m rest v, List.lookup "message" fields = none →
        List.lookup "choices" fields = some (JVal.jarr (JVal.jobj m :: rest)) →
        List.lookup "message" m = some v → (∀ mm, v ≠ JVal.jobj mm) →
        parseReply (some (JVal.jobj fields)) raw = JVal.jstr raw) := by
  refine ⟨?_, ?_, fun raw => rfl, ?_, fun raw => rfl, fun raw b => rfl, fun raw n => rfl,
    fun raw s => rfl, fun raw xs => rfl, ?_, ?_, ?_, ?_, ?_⟩
  · intro fields mf raw hmsg
    unfold parseReply
    dsimp only
    rw [hmsg]
  · intro fields raw mm rest m2 v hmsg hch hm2 hv
    unfold parseReply
    dsimp only
    rw [hmsg, hch]
    simp only [pyLen, List.length_cons]
    rw [hm2]
    simp only [Option.getD_some]
    rw [hv]
    rfl
  · intro fields raw hmsg hch
    unfold parseReply
    dsimp only
    rw [hmsg, hch]
  · intro fields raw cv hmsg hch hlen
    unfold parseReply
    dsimp only
    rw [hmsg, hch]
    dsimp only
    rw [hlen]
  · intro fields raw x rest hmsg hch hx
    unfold parseReply
    dsimp only
    rw [hmsg, hch]
    simp only [pyLen, List.length_cons]
    cases x with
    | jobj m => exact absurd rfl (hx m)
    | jnull => rfl
    | jbool b => rfl
    | jnum n => rfl
    | jstr s => rfl
    | jarr ys => rfl
  · intro fields raw s hmsg hch hs
    unfold parseReply
    dsimp only
    rw [hmsg, hch]
    obtain ⟨sd⟩ := s
    cases sd with
    | nil => exact absurd rfl hs
    | cons a t => rfl
  · intro fields raw fs2 hmsg hch hfs
    unfold parseReply
    dsimp only
    rw [hmsg, hch]
    cases fs2 with
    | nil => exact absurd rfl hfs
    | cons f fs3 => rfl
  · intro fields raw m rest v hmsg hch hv hne
    unfold parseReply
    dsimp only
    rw [hmsg, hch]
    simp only [pyLen, List.length_cons]
    rw [hv]
    cases v with
    | jobj mm => exact absurd rfl (hne mm)
    | jnull => rfl
    | jbool b => rfl
    | jnum n => rfl
    | jstr s => rfl
    | jarr ys => rfl

/-- Claim C7 counterexample: a response dict whose "message" is a dict
WITHOUT "content", alongside a well-formed choices[0].message.content.
Per the claim, attempt (a) yields no value, so the attempt (b) value "hi" should
be used; the code instead commits to the "message" branch and returns the
empty string.  specReply follows the claim wording. -/
theorem claim_C7_cex :
    parseReply
      (some (JVal.jobj [("message", JVal.jobj []),
        ("choices", JVal.jarr [JVal.jobj [("message", JVal.jobj [("content", JVal.jstr "hi")])]])]))
      "body" = JVal.jstr "" ∧
    specReply
      (some (JVal.jobj [("message", JVal.jobj []),
        ("choices", JVal.jarr [JVal.jobj [("message", JVal.jobj [("content", JVal.jstr "hi")])]])]))
      "body" = "hi" ∧
    ("" : String) ≠ "hi" := by
  refine ⟨rfl, rfl, by decide⟩

/-- Claim C7 witness: the message.content priority applied at a concrete
response. -/
theorem claim_C7_witness :
    List.lookup "message" [("message", JVal.jobj [("content", JVal.jstr "ok")])] =
      some (JVal.jobj [("content", JVal.jstr "ok")]) ∧
    parseReply (some (JVal.jobj [("message", JVal.jobj [("content", JVal.jstr "ok")])])) "r" =
      JVal.jstr "ok" := by
  refine ⟨rfl, ?_⟩
  have h := claim_C7.1 [("message", JVal.jobj [("content", JVal.jstr "ok")])]
    [("content", JVal.jstr "ok")] "r" rfl
  rw [h]
  rfl

/-- Claim C8 (amended): a tick whose stripped, NON-empty read differs from
the last observed value triggers translation or display and becomes the
new last observed value — including a change back to a value seen before
the immediately preceding one, since only the last value is kept; two
consecutive ticks with the same read never trigger twice; but a tick
whose read strips to empty (or whose clipboard read raises) triggers
nothing and leaves the last observed value unchanged, even when it
differs from it. -/
theorem claim_C8 (last raw : String) (mode : Bool)
    (h1 : pyStrip raw ≠ "") (h2 : pyStrip raw ≠ last) :
    (clipStep last (some raw) mode).2 =
      some (if mode then ClipAction.display (pyStrip raw)
            else ClipAction.translate (pyStrip raw)) ∧
    (clipStep last (some raw) mode).1 = pyStrip raw ∧
    (∀ l r m, (clipStep (clipStep l (some r) m).1 (some r) m).2 = none) ∧
    (∀ l m r, pyStrip r = "" → clipStep l (some r) m = (l, none)) ∧
    (∀ l m, clipStep l none m = (l, none)) := by
  refine ⟨?_, ?_, ?_, ?_, fun l m => rfl⟩
  · unfold clipStep
    dsimp only
    rw [if_neg h1, if_neg h2]
  · unfold clipStep
    dsimp only
    rw [if_neg h1, if_neg h2]
  · intro l r m
    by_cases he : pyStrip r = ""
    · have hstep : clipStep l (some r) m = (l, none) := by
        unfold clipStep; dsimp only; rw [if_pos he]
      rw [hstep]
      unfold clipStep; dsimp only; rw [if_pos he]
    · by_cases hl : pyStrip r = l
      · have hstep : clipStep l (some r) m = (l, none) := by
          unfold clipStep; dsimp only; rw [if_neg he, if_pos hl]
        rw [hstep]
        unfold clipStep; dsimp only; rw [if_neg he, if_pos hl]
      · have hstep : (clipStep l (some r) m).1 = pyStrip r := by
          unfold clipStep; dsimp only; rw [if_neg he, if_neg hl]
        rw [hstep]
        unfold clipStep; dsimp only; rw [if_neg he, if_pos rfl]
  · intro l m r he
    unfold clipStep
    dsimp only
    rw [if_pos he]

/-- Claim C8 counterexample: with last observed value "a", a tick that
reads the (cleared) empty clipboard — a read that differs from the last
observed value — triggers nothing, contradicting the claim that every
differing read triggers translation or display. -/
theorem claim_C8_cex :
    (clipStep "a" (some "") true).2 = none ∧
    (clipStep "a" (some "") true).1 = "a" ∧
    ("" : String) ≠ "a" := by
  refine ⟨rfl, rfl, by decide⟩

/-- Claim C8 witness: a change back to a previously seen value triggers,
and a repeated read does not, on concrete reads. -/
theorem claim_C8_witness :
    pyStrip "a" ≠ "" ∧ pyStrip "a" ≠ "b" ∧
    (clipStep "b" (some "a") false).2 = some (ClipAction.translate "a") ∧
    (clipStep "b" (some "a") false).1 = "a" ∧
    (clipStep (clipStep "b" (some "a") false).1 (some "a") false).2 = none := by
  have h := claim_C8 "b" "a" false (by decide) (by decide)
  exact ⟨by decide, by decide, h.1, h.2.1, h.2.2.1 "b" "a" false⟩

/-- Claim C9: when the stored latest_answer is non-empty, a (non-blank,
Polly-available) POST /api/ask-audio-stream request synthesizes speech
from that stored answer, leaves the store untouched, and never invokes
the inference client with its own question; only with an empty store does
it call inference with its own (stripped) question; and a successful
POST /api/ask-stream leaves exactly its streamed answer in the store, so
the stored answer is the one produced by the most recent prior
answer-producing request. -/
theorem claim_C9 (st : WebState) (q : String) (vOk : Bool) (inf : Option String)
    (h1 : st.latestAnswer ≠ "") (h2 : pyStrip q ≠ "") :
    (stream_audio st q true vOk inf).2.inferenceQuestion = none ∧
    (stream_audio st q true vOk inf).1 = st ∧
    (vOk = true → (stream_audio st q true vOk inf).2.synthesizedFrom = some st.latestAnswer) ∧
    (∀ st2 q2 vOk2 inf2, (st2 : WebState).latestAnswer = "" → pyStrip q2 ≠ "" →
        (stream_audio st2 q2 true vOk2 inf2).2.inferenceQuestion = some (pyStrip q2)) ∧
    (∀ st3 q3 raw ans st4, stream_text st3 q3 (some raw) = (st4, some ans) →
        st4.latestAnswer = ans ∧ ans = pyNormalize raw) := by
  have hcond : ¬(pyStrip q = "" ∨ (true : Bool) = false) := by
    intro hc
    rcases hc with hc | hc
    · exact h2 hc
    · exact Bool.true_eq_false.mp hc
  have hmain : stream_audio st q true vOk inf =
      (if vOk then (st, ⟨none, some st.latestAnswer⟩) else (st, ⟨none, none⟩)) := by
    unfold stream_audio
    dsimp only
    rw [if_neg hcond, if_pos h1]
  refine ⟨?_, ?_, ?_, ?_, ?_⟩
  · rw [hmain]; cases vOk <;> rfl
  · rw [hmain]; cases vOk <;> rfl
  · intro hv; rw [hmain, hv]; rfl
  · intro st2 q2 vOk2 inf2 hempty hq2
    have hcond2 : ¬(pyStrip q2 = "" ∨ (true : Bool) = false) := by
      intro hc
      rcases hc with hc | hc
      · exact hq2 hc
      · exact Bool.true_eq_false.mp hc
    have hne : ¬st2.latestAnswer ≠ "" := fun hx => hx hempty
    unfold stream_audio
    dsimp only
    rw [if_neg hcond2, if_neg hne]
    cases inf2 with
    | none => rfl
    | some raw =>
      dsimp only [get_ollama_response]
      by_cases ha : pyNormalize raw = ""
      · rw [if_pos ha]
      · rw [if_neg ha]
        cases vOk2 <;> rfl
  · intro st3 q3 raw ans st4 hrun
    unfold stream_text at hrun
    by_cases hq3 : pyStrip q3 = ""
    · rw [if_pos hq3] at hrun
      exact absurd (congrArg Prod.snd hrun) (by simp)
    · rw [if_neg hq3] at hrun
      dsimp only [get_ollama_response] at hrun
      by_cases ha : pyNormalize raw = ""
      · rw [if_pos ha] at hrun
        exact absurd (congrArg Prod.snd hrun) (by simp)
      · rw [if_neg ha] at hrun
        have h1' := congrArg Prod.fst hrun
        have h2' := congrArg Prod.snd hrun
        simp at h1' h2'
        refine ⟨?_, h2'.symm⟩
        rw [← h1']
        exact h2'.symm ▸ rfl

/-- Claim C9 witness: with "stored" in the store, a concrete audio request
synthesizes "stored" and sends no inference question. -/
theorem claim_C9_witness :
    (⟨"stored"⟩ : WebState).latestAnswer ≠ "" ∧ pyStrip "hi" ≠ "" ∧
    (stream_audio ⟨"stored"⟩ "hi" true true none).2.inferenceQuestion = none ∧
    (stream_audio ⟨"stored"⟩ "hi" true true none).2.synthesizedFrom = some "stored" := by
  have h := claim_C9 ⟨"stored"⟩ "hi" true none (by decide) (by decide)
  exact ⟨by decide, by decide, h.1, h.2.2.1 rfl⟩

theorem neSpaceOfNotWs : ∀ c : Char, pyIsSpace c = false → c ≠ ' ' := by
  intro c h he
  subst he
  simp [pyIsSpace] at h

/-- Every piece produced by the Python argumentless split is a non-empty
word containing no whitespace. -/
theorem splitWsWords : ∀ (cs acc : List Char),
    (∀ c ∈ acc, pyIsSpace c = false) →
    ∀ w ∈ splitWsAcc cs acc, w ≠ [] ∧ ∀ c ∈ w, pyIsSpace c = false := by
  intro cs
  induction cs with
  | nil =>
    intro acc hacc w hw
    unfold splitWsAcc at hw
    by_cases hne : acc.isEmpty
    · rw [if_pos hne] at hw
      exact absurd hw (List.not_mem_nil w)
    · rw [if_neg hne] at hw
      have hw' : w = acc.reverse := by simpa using hw
      subst hw'
      refine ⟨?_, fun c hc => hacc c (List.mem_reverse.mp hc)⟩
      intro h0
      apply hne
      have : acc = [] := by simpa using congrArg List.reverse h0
      simp [this]
  | cons a rest ih =>
    intro acc hacc w hw
    unfold splitWsAcc at hw
    by_cases hsp : pyIsSpace a = true
    · rw [if_pos hsp] at hw
      by_cases hne : acc.isEmpty
      · rw [if_pos hne] at hw
        exact ih [] (by intro c hc; simp at hc) w hw
      · rw [if_neg hne] at hw
        rcases List.mem_cons.mp hw with hw1 | hw2
        · subst hw1
          refine ⟨?_, fun c hc => hacc c (List.mem_reverse.mp hc)⟩
          intro h0
          apply hne
          have : acc = [] := by simpa using congrArg List.reverse h0
          simp [this]
        · exact ih [] (by intro c hc; simp at hc) w hw2
    · rw [if_neg hsp] at hw
      refine ih (a :: acc) ?_ w hw
      intro c hc
      rcases List.mem_cons.mp hc with h | h
      · subst h
        exact Bool.eq_false_iff.mpr hsp
      · exact hacc c h

theorem wordAllPred : ∀ (w : List Char), (∀ c ∈ w, pyIsSpace c = false) →
    w.all (fun c => !pyIsSpace c || decide (c = ' ')) = true := by
  intro w hw
  rw [List.all_eq_true]
  intro c hc
  simp [hw c hc]

theorem onlySpaceJoin : ∀ ws : List (List Char),
    (∀ w ∈ ws, w ≠ [] ∧ ∀ c ∈ w, pyIsSpace c = false) →
    onlySpaceWs (joinWordsCh ws) = true := by
  intro ws
  induction ws with
  | nil => intro _; rfl
  | cons w vs ih =>
    intro h
    cases vs with
    | nil => exact wordAllPred w (h w (by simp)).2
    | cons v ws' =>
      show onlySpaceWs (w ++ ' ' :: joinWordsCh (v :: ws')) = true
      have h1 := wordAllPred w (h w (by simp)).2
      have h2 := ih (fun u hu => h u (by simp [hu]))
      unfold onlySpaceWs at h2 ⊢
      simp only [List.all_append, List.all_cons, h1, h2]
      rfl

theorem firstNotSpaceJoin : ∀ ws : List (List Char),
    (∀ w ∈ ws, w ≠ [] ∧ ∀ c ∈ w, pyIsSpace c = false) →
    firstNotSpace (joinWordsCh ws) = true := by
  intro ws h
  cases ws with
  | nil => rfl
  | cons w vs =>
    obtain ⟨hne, hchars⟩ := h w (by simp)
    cases w with
    | nil => exact absurd rfl hne
    | cons c w' =>
      have hcs : c ≠ ' ' := neSpaceOfNotWs c (hchars c (by simp))
      cases vs with
      | nil =>
        show firstNotSpace (c :: w') = true
        simp [firstNotSpace, hcs]
      | cons v ws' =>
        show firstNotSpace ((c :: w') ++ ' ' :: joinWordsCh (v :: ws')) = true
        rw [List.cons_append]
        simp [firstNotSpace, hcs]

theorem lastNotSpaceCons : ∀ (a : Char) (t : List Char),
    lastNotSpaceB (a :: t) = (if t.isEmpty then decide (a ≠ ' ') else lastNotSpaceB t) := by
  intro a t
  cases t with
  | nil => rfl
  | cons b r => rfl

theorem lastNotSpaceWord : ∀ (w : List Char), (∀ c ∈ w, pyIsSpace c = false) →
    lastNotSpaceB w = true := by
  intro w
  induction w with
  | nil => intro _; rfl
  | cons a t ih =>
    intro h
    rw [lastNotSpaceCons]
    cases t with
    | nil =>
      have := neSpaceOfNotWs a (h a (by simp))
      simp [this]
    | cons b r =>
      have ht := ih (fun c hc => h c (by simp [hc]))
      simpa using ht

theorem lastNotSpaceAppend : ∀ (xs ys : List Char), ys ≠ [] →
    lastNotSpaceB (xs ++ ys) = lastNotSpaceB ys := by
  intro xs
  induction xs with
  | nil => intro ys _; rfl
  | cons x xs ih =>
    intro ys hys
    rw [List.cons_append, lastNotSpaceCons]
    have hne : (xs ++ ys).isEmpty = false := by
      cases h : xs ++ ys with
      | nil => exact absurd (List.append_eq_nil.mp h).2 hys
      | cons a as => rfl
    rw [hne]
    simpa using ih ys hys

theorem joinNonempty : ∀ (v : List Char) (ws : List (List Char)), v ≠ [] →
    joinWordsCh (v :: ws) ≠ [] := by
  intro v ws hv
  cases ws with
  | nil => exact hv
  | cons w ws' =>
    show v ++ ' ' :: joinWordsCh (w :: ws') ≠ []
    simp

theorem lastNotSpaceJoin : ∀ ws : List (List Char),
    (∀ w ∈ ws, w ≠ [] ∧ ∀ c ∈ w, pyIsSpace c = false) →
    lastNotSpaceB (joinWordsCh ws) = true := by
  intro ws
  induction ws with
  | nil => intro _; rfl
  | cons w vs ih =>
    intro h
    cases vs with
    | nil => exact lastNotSpaceWord w (h w (by simp)).2
    | cons v ws' =>
      show lastNotSpaceB (w ++ ' ' :: joinWordsCh (v :: ws')) = true
      rw [lastNotSpaceAppend w (' ' :: joinWordsCh (v :: ws')) (by simp), lastNotSpaceCons]
      have hjoin := ih (fun u hu => h u (by simp [hu]))
      have hne : (joinWordsCh (v :: ws')).isEmpty = false := by
        have hx := joinNonempty v ws' (h v (by simp)).1
        cases hj : joinWordsCh (v :: ws') with
        | nil => exact absurd hj hx
        | cons b r => rfl
      rw [hne]
      simpa using hjoin

theorem noDoubleOfNoSpace : ∀ (w : List Char), (∀ c ∈ w, pyIsSpace c = false) →
    noDoubleSpace w = true := by
  intro w
  induction w with
  | nil => intro _; rfl
  | cons a t ih =>
    intro h
    cases t with
    | nil => rfl
    | cons b r =>
      show (!(decide (a = ' ') && decide (b = ' ')) && noDoubleSpace (b :: r)) = true
      have ha : a ≠ ' ' := neSpaceOfNotWs a (h a (by simp))
      have ht := ih (fun c hc => h c (by simp [hc]))
      simp [ha, ht]

theorem noDoublePrependWord : ∀ (w rest : List Char),
    (∀ c ∈ w, pyIsSpace c = false) → noDoubleSpace rest = true →
    noDoubleSpace (w ++ rest) = true := by
  intro w
  induction w with
  | nil =>
    intro rest _ hr
    simpa using hr
  | cons a w' ih =>
    intro rest h hr
    have ha : a ≠ ' ' := neSpaceOfNotWs a (h a (by simp))
    cases w' with
    | nil =>
      cases rest with
      | nil => rfl
      | cons b r =>
        show (!(decide (a = ' ') && decide (b = ' ')) && noDoubleSpace (b :: r)) = true
        simp [ha, hr]
    | cons b w'' =>
      show (!(decide (a = ' ') && decide (b = ' ')) && noDoubleSpace ((b :: w'') ++ rest)) = true
      have ht := ih rest (fun c hc => h c (by simp [hc])) hr
      have ha2 : (decide (a = ' ') : Bool) = false := by simp [ha]
      simp only [ha2, Bool.false_and, Bool.not_false, Bool.true_and]
      exact ht

theorem noDoubleJoin : ∀ ws : List (List Char),
    (∀ w ∈ ws, w ≠ [] ∧ ∀ c ∈ w, pyIsSpace c = false) →
    noDoubleSpace (joinWordsCh ws) = true := by
  intro ws
  induction ws with
  | nil => intro _; rfl
  | cons w vs ih =>
    intro h
    cases vs with
    | nil => exact noDoubleOfNoSpace w (h w (by simp)).2
    | cons v ws' =>
      show noDoubleSpace (w ++ ' ' :: joinWordsCh (v :: ws')) = true
      apply noDoublePrependWord w (' ' :: joinWordsCh (v :: ws')) (h w (by simp)).2
      have hjoin := ih (fun u hu => h u (by simp [hu]))
      have hfirst := firstNotSpaceJoin (v :: ws') (fun u hu => h u (by simp [hu]))
      cases hx : joinWordsCh (v :: ws') with
      | nil => rfl
      | cons b r =>
        show (!(decide (' ' = ' ') && decide (b = ' ')) && noDoubleSpace (b :: r)) = true
        have hb : b ≠ ' ' := by
          rw [hx] at hfirst
          simpa [firstNotSpace] using hfirst
        rw [hx] at hjoin
        simp [hb, hjoin]

theorem splitOnSpaceNonnil : ∀ cs : List Char, splitOnSpace cs ≠ [] := by
  intro cs
  cases cs with
  | nil => simp [splitOnSpace]
  | cons c rest =>
    unfold splitOnSpace
    by_cases hc : c = ' '
    · rw [if_pos hc]; simp
    · rw [if_neg hc]
      cases hx : splitOnSpace rest <;> simp

theorem joinConsHead : ∀ (c : Char) (w : List Char) (ws : List (List Char)),
    joinWordsCh ((c :: w) :: ws) = c :: joinWordsCh (w :: ws) := by
  intro c w ws
  cases ws with
  | nil => rfl
  | cons v ws' => rfl

theorem joinSplitOnSpace : ∀ cs : List Char, joinWordsCh (splitOnSpace cs) = cs := by
  intro cs
  induction cs with
  | nil => rfl
  | cons c rest ih =>
    unfold splitOnSpace
    by_cases hc : c = ' '
    · rw [if_pos hc]
      cases hx : splitOnSpace rest with
      | nil => exact absurd hx (splitOnSpaceNonnil rest)
      | cons w ws =>
        show [] ++ ' ' :: joinWordsCh (w :: ws) = c :: rest
        rw [List.nil_append, hc]
        rw [hx] at ih
        rw [ih]
    · rw [if_neg hc]
      cases hx : splitOnSpace rest with
      | nil => exact absurd hx (splitOnSpaceNonnil rest)
      | cons w ws =>
        show joinWordsCh ((c :: w) :: ws) = c :: rest
        rw [joinConsHead]
        rw [hx] at ih
        rw [ih]

theorem chunksJoin : ∀ ws : List (List Char), (chunksAux ws).flatten = joinWordsCh ws := by
  intro ws
  induction ws with
  | nil => rfl
  | cons w vs ih =>
    cases vs with
    | nil => simp [chunksAux, joinWordsCh]
    | cons v ws' =>
      show ((w ++ [' ']) :: chunksAux (v :: ws')).flatten = w ++ ' ' :: joinWordsCh (v :: ws')
      rw [List.flatten_cons, ih]
      simp [List.append_assoc]

theorem streamBodyId : ∀ cs : List Char, streamBodyCh cs = cs := by
  intro cs
  unfold streamBodyCh
  rw [chunksJoin, joinSplitOnSpace]

/-- Claim C10: every successful inference call made by the web server
whitespace-normalises the answer before storing or streaming it — the
literal backslash-n sequences and real newlines become spaces and all
whitespace runs collapse via " ".join(split()) — so the value stored in
latest_answer and returned equals pyNormalize of the raw reply, the body
streamed by POST /api/ask-stream (its word chunks concatenated) is
exactly that value, and that value contains no newline, has a space as
its only whitespace, and has no leading, trailing, or repeated spaces. -/
theorem claim_C10 (raw : String) (st : WebState) :
    (get_ollama_response st (some raw)).2 = some (pyNormalize raw) ∧
    (get_ollama_response st (some raw)).1.latestAnswer = pyNormalize raw ∧
    streamBodyCh (pyNormalize raw).data = (pyNormalize raw).data ∧
    (pyNormalize raw).data.all (fun c => decide (c ≠ '\n')) = true ∧
    onlySpaceWs (pyNormalize raw).data = true ∧
    firstNotSpace (pyNormalize raw).data = true ∧
    lastNotSpaceB (pyNormalize raw).data = true ∧
    noDoubleSpace (pyNormalize raw).data = true := by
  have hwords : ∀ w ∈ splitWs (pyReplace (pyReplace (pyStrip raw) "\\n" " ") "\n" " ").data,
      w ≠ [] ∧ ∀ c ∈ w, pyIsSpace c = false :=
    splitWsWords (pyReplace (pyReplace (pyStrip raw) "\\n" " ") "\n" " ").data []
      (by intro c hc; simp at hc)
  have hdata : (pyNormalize raw).data =
      joinWordsCh (splitWs (pyReplace (pyReplace (pyStrip raw) "\\n" " ") "\n" " ").data) := rfl
  have honly : onlySpaceWs (pyNormalize raw).data = true := by
    rw [hdata]; exact onlySpaceJoin _ hwords
  refine ⟨rfl, rfl, streamBodyId _, ?_, honly, ?_, ?_, ?_⟩
  · rw [List.all_eq_true]
    intro c hc
    unfold onlySpaceWs at honly
    rw [List.all_eq_true] at honly
    have hpred := honly c hc
    simp only [Bool.or_eq_true, Bool.not_eq_true', decide_eq_true_eq] at hpred
    simp only [decide_eq_true_eq]
    intro he
    subst he
    rcases hpred with hp | hp
    · simp [pyIsSpace] at hp
    · exact absurd hp (by decide)
  · rw [hdata]; exact firstNotSpaceJoin _ hwords
  · rw [hdata]; exact lastNotSpaceJoin _ hwords
  · rw [hdata]; exact noDoubleJoin _ hwords
